import Mathlib

set_option maxHeartbeats 1000000

/-!
Verification development for the OphthalmoCapture medical-image labeling tool.

The Python sources under `src/interface/` are shallowly embedded below:

* `session_manager.py` — the ephemeral per-session store (`SessionState`);
  `st.session_state` is passed explicitly, `uuid.uuid4()` / `datetime.now()`
  become explicit parameters (`img_id`, `now`).
* `database.py` — the SQLite `annotations` table becomes a list of rows
  (`AnnRow`); the upsert `save_or_update_annotation` is embedded directly.
* `components/labeler.py`, `components/recorder.py`,
  `components/uploader.py` — each interaction cycle of these Streamlit
  components becomes a pure step function on the state it mutates.
* `services/export_service.py` — ZIP archives become lists of
  (entry-name, entry-data) pairs; CSV/JSON serialisation is embedded at the
  level of the produced text.

Python `bytes` values are `List Nat`, wall-clock datetimes are `Rat`
(seconds), dicts keyed by strings are insertion-ordered association lists
(mirroring CPython dict ordering).
-/

namespace OphthalmoCapture

/-- One image record of `st.session_state.images`
(`session_manager.add_image`).  The `locs_data` key is absent in Python
until the labeler first writes it; every read uses
`img.get("locs_data", {})`, so the absent key and the empty dict behave
identically and both are modelled by `[]`. -/
structure ImageRec where
  filename : String
  bytes : Option (List Nat)
  label : Option String
  audio_bytes : Option (List Nat)
  transcription : String
  transcription_original : String
  timestamp : Rat
  labeled_by : String
  locs_data : List (String × Nat)
deriving Repr, DecidableEq

/-- The ephemeral per-session store (`session_manager.init_session`). -/
structure SessionState where
  session_id : String
  images : List (String × ImageRec)
  image_order : List String
  current_image_id : Option String
  last_activity : Option Rat
  doctor_name : String
  confirm_end_session : Bool
deriving Repr, DecidableEq

/-- `session_manager.init_session`: a no-op when the session is already
initialized, otherwise a fresh empty session with a newly generated
session id (`uuid.uuid4()` becomes the explicit `new_sid`). -/
def init_session (s : Option SessionState) (new_sid : String) (now : Rat) : SessionState :=
  match s with
  | some st => st
  | none =>
    { session_id := new_sid
      images := []
      image_order := []
      current_image_id := none
      last_activity := some now
      doctor_name := ""
      confirm_end_session := false }

/-- `session_manager.update_activity`. -/
def update_activity (s : SessionState) (now : Rat) : SessionState :=
  { s with last_activity := some now }

/-- The record built by `session_manager.add_image` for a fresh upload. -/
def freshImage (filename : String) (image_bytes : List Nat) (doctor : String)
    (now : Rat) : ImageRec :=
  { filename := filename
    bytes := some image_bytes
    label := none
    audio_bytes := none
    transcription := ""
    transcription_original := ""
    timestamp := now
    labeled_by := doctor
    locs_data := [] }

/-- `session_manager.add_image` (the generated `uuid.uuid4()` is the
explicit parameter `img_id`; a CPython dict insert of a new key appends). -/
def add_image (s : SessionState) (img_id filename : String)
    (image_bytes : List Nat) (now : Rat) : SessionState :=
  update_activity
    { s with
        images := s.images ++ [(img_id, freshImage filename image_bytes s.doctor_name now)]
        image_order := s.image_order ++ [img_id] }
    now

/-- `session_manager.remove_image`: null the heavy byte fields, delete the
dict entry, remove the id from `image_order`, and reset the current
selection when the deleted image was active. -/
def remove_image (s : SessionState) (img_id : String) : SessionState :=
  let images1 := s.images.map fun p =>
    if p.1 = img_id then (p.1, { p.2 with bytes := none, audio_bytes := none }) else p
  let images2 := images1.filter fun p => p.1 != img_id
  let order2 := s.image_order.erase img_id
  let current2 :=
    if s.current_image_id = some img_id then order2.head? else s.current_image_id
  { s with images := images2, image_order := order2, current_image_id := current2 }

/-- `session_manager.set_current_image`: only accepts ids present in
`images`. -/
def set_current_image (s : SessionState) (img_id : String) (now : Rat) : SessionState :=
  if (s.images.lookup img_id).isSome then
    update_activity { s with current_image_id := some img_id } now
  else s

/-- `session_manager.check_session_timeout`: true when the elapsed minutes
since `last_activity` strictly exceed the threshold, false when there is no
`last_activity`. -/
def check_session_timeout (s : SessionState) (now : Rat) (timeout_minutes : Rat) : Bool :=
  match s.last_activity with
  | some last => decide ((now - last) / 60 > timeout_minutes)
  | none => false

/-- `session_manager.clear_session`: `st.session_state.clear()` leaves no
session at all (so a following `init_session` rebuilds from scratch). -/
def clear_session (_s : SessionState) : Option SessionState := none

/-! ## Database layer (`database.py`, SQLite backend) -/

/-- One row of the SQLite `annotations` table. -/
structure AnnRow where
  rid : Nat
  image_filename : String
  label : Option String
  transcription : String
  doctor_name : String
  created_at : Nat
  session_id : String
  locs_data : String
deriving Repr, DecidableEq

/-- Minimal JSON string escaping (backslash and double quote), as performed
by `json.dumps` on the strings appearing here. -/
def jsonEscape (s : String) : String :=
  s.data.foldl (fun acc c =>
    acc ++ (if c = '"' then "\\\"" else if c = '\\' then "\\\\" else String.singleton c)) ""

/-- `json.dumps` of a string-keyed integer dict (`locs_data`). -/
def locsJson (locs : List (String × Nat)) : String :=
  "\x7b" ++ String.intercalate ", "
    (locs.map fun p => "\"" ++ jsonEscape p.1 ++ "\": " ++ toString p.2) ++ "\x7d"

/-- The `WHERE image_filename = ? AND session_id = ?` condition. -/
def matchesPair (f s : String) (r : AnnRow) : Bool :=
  r.image_filename == f && r.session_id == s

/-- The `SELECT id ... LIMIT 1` lookup of the upsert. -/
def findPairRow (db : List AnnRow) (f s : String) : Option AnnRow :=
  db.find? (matchesPair f s)

/-- The AUTOINCREMENT primary key: one more than the largest id used. -/
def nextRowId (db : List AnnRow) : Nat :=
  (db.map fun r => r.rid).foldr max 0 + 1

/-- The `UPDATE annotations SET ... WHERE id = ?` statement applied to one
row: only the row with the found primary key gets its mutable fields and
timestamp overwritten. -/
def updateRow (label : Option String) (transcription doctor_name : String)
    (timestamp : Nat) (locs_json : String) (rowId : Nat) (r : AnnRow) : AnnRow :=
  if r.rid = rowId then
    { r with
        label := label
        transcription := transcription
        doctor_name := doctor_name
        created_at := timestamp
        locs_data := locs_json }
  else r

/-- The row inserted by the `INSERT INTO annotations ...` branch. -/
def insertedRow (db : List AnnRow) (image_filename : String) (label : Option String)
    (transcription doctor_name session_id : String) (timestamp : Nat)
    (locs_json : String) : AnnRow :=
  { rid := nextRowId db
    image_filename := image_filename
    label := label
    transcription := transcription
    doctor_name := doctor_name
    created_at := timestamp
    session_id := session_id
    locs_data := locs_json }

/-- `database.save_or_update_annotation` (SQLite branch): if a row for
`(image_filename, session_id)` exists, UPDATE its mutable fields by id,
otherwise INSERT a new row. -/
def save_or_update_annotation (db : List AnnRow) (image_filename : String)
    (label : Option String) (transcription doctor_name session_id : String)
    (locs_data : Option (List (String × Nat))) (timestamp : Nat) : List AnnRow :=
  let locs_json := locsJson (locs_data.getD [])
  match findPairRow db image_filename session_id with
  | some row =>
    db.map (updateRow label transcription doctor_name timestamp locs_json row.rid)
  | none =>
    db ++ [ insertedRow db image_filename label transcription doctor_name session_id
              timestamp locs_json]

/-! ## Configuration constants (`config.py`) -/

/-- One entry of `config.LABEL_OPTIONS`. -/
structure LabelOption where
  key : String
  display : String
  code : Nat
deriving Repr, DecidableEq

/-- `config.LABEL_OPTIONS`. -/
def LABEL_OPTIONS : List LabelOption :=
  [ { key := "normal", display := "Normal", code := 0 }
  , { key := "cataract", display := "Cataract", code := 1 }
  , { key := "bad_quality", display := "Bad quality", code := 2 }
  , { key := "needs_dilation", display := "Needs dilation", code := 3 } ]

/-- The field ids of `config.LOCS_FIELDS`, in declaration order. -/
def LOCS_FIELD_IDS : List String :=
  ["nuclear_opalescence", "nuclear_color", "cortical_opacity"]

/-- `config.SESSION_TIMEOUT_MINUTES`. -/
def SESSION_TIMEOUT_MINUTES : Nat := 30

/-- `config.MAX_UPLOAD_SIZE_MB`. -/
def MAX_UPLOAD_SIZE_MB : Nat := 50

/-- The `label_map` built in the export service:
`{opt["display"]: opt["code"] for opt in config.LABEL_OPTIONS}.get(l)`. -/
def labelCode (l : String) : Option Nat :=
  (LABEL_OPTIONS.find? fun o => o.display == l).map fun o => o.code

/-! ## Labeling component (`components/labeler.py`) -/

/-- A CPython dict assignment `locs[k] = v`: an existing key keeps its
position and gets the new value, a new key is appended. -/
def locsSet (locs : List (String × Nat)) (k : String) (v : Nat) : List (String × Nat) :=
  if (locs.lookup k).isSome then
    locs.map fun p => if p.1 = k then (p.1, v) else p
  else locs ++ [(k, v)]

/-- One iteration of the LOCS dropdown loop in `render_labeler`:
`if value is not None and value != current_locs.get(field_id)` then store
the value and flag the change. -/
def updateLocsField (locs : List (String × Nat)) (fid : String) (choice : Option Nat) :
    List (String × Nat) × Bool :=
  match choice with
  | none => (locs, false)
  | some v =>
    if locs.lookup fid = some v then (locs, false) else (locsSet locs fid v, true)

/-- The full LOCS dropdown loop over `config.LOCS_FIELDS`; returns the
updated `locs_data` and the `locs_changed` flag. -/
def updateLocs (locs : List (String × Nat)) (choices : String → Option Nat) :
    List (String × Nat) × Bool :=
  LOCS_FIELD_IDS.foldl
    (fun acc fid =>
      let r := updateLocsField acc.1 fid (choices fid)
      (r.1, acc.2 || r.2))
    (locs, false)

/-- The `label_changed` test in `render_labeler`:
`new_label is not None and new_label != current_label`. -/
def labelChanged (img : ImageRec) (new_label : Option String) : Bool :=
  new_label.isSome && new_label != img.label

/-- `effective_label = new_label or current_label` in `render_labeler`. -/
def effectiveLabel (img : ImageRec) (new_label : Option String) : Option String :=
  match new_label with
  | some l => some l
  | none => img.label

/-- The in-memory effect of one `render_labeler` pass on the image record.
`new_label` is the (English) result of `label_from_display(selected)`,
`choices` gives the numeric value selected in each LOCS dropdown. -/
def render_labeler_step (img : ImageRec) (doctor : String) (new_label : Option String)
    (choices : String → Option Nat) : ImageRec :=
  let img1 :=
    if labelChanged img new_label then
      { img with
          label := new_label
          labeled_by := doctor
          locs_data := if new_label ≠ some "Cataract" then [] else img.locs_data }
    else img
  if effectiveLabel img new_label = some "Cataract" then
    { img1 with locs_data := (updateLocs img1.locs_data choices).1 }
  else img1

/-- `labeler._save_to_db`: the audit write may raise; the `try/except: pass`
swallows the exception, leaving the audit store untouched and returning
control to the caller.  `writeFails = true` models a raising write. -/
def attempt_save (db : List AnnRow) (writeFails : Bool) (img : ImageRec)
    (doctor sid : String) (ts : Nat) : List AnnRow :=
  if writeFails then db
  else
    save_or_update_annotation db img.filename img.label img.transcription doctor sid
      (some img.locs_data) ts

/-- One `render_labeler` pass together with its audit-store writes
(`_save_to_db` after a label change and after a LOCS change). -/
def render_labeler_step_db (img : ImageRec) (db : List AnnRow) (doctor sid : String)
    (new_label : Option String) (choices : String → Option Nat) (ts : Nat)
    (writeFails : Bool) : ImageRec × List AnnRow :=
  let changed := labelChanged img new_label
  let img1 :=
    if changed then
      { img with
          label := new_label
          labeled_by := doctor
          locs_data := if new_label ≠ some "Cataract" then [] else img.locs_data }
    else img
  let db1 := if changed then attempt_save db writeFails img1 doctor sid ts else db
  if effectiveLabel img new_label = some "Cataract" then
    let u := updateLocs img1.locs_data choices
    let img2 := { img1 with locs_data := u.1 }
    let db2 := if u.2 then attempt_save db1 writeFails img2 doctor sid ts else db1
    (img2, db2)
  else (img1, db1)

/-! ## Recorder component (`components/recorder.py`) -/

/-- The in-memory effect of transcribing a new audio recording in
`render_recorder`: store the audio, append the transcript to any existing
text (separated by one space), or set it when the existing text is empty;
same for the raw-Whisper copy. -/
def render_recorder_transcribe (img : ImageRec) (audio : List Nat) (text : String) :
    ImageRec :=
  { img with
      audio_bytes := some audio
      transcription :=
        if img.transcription ≠ "" then img.transcription ++ " " ++ text else text
      transcription_original :=
        if img.transcription_original ≠ "" then
          img.transcription_original ++ " " ++ text
        else text }

/-- The re-record action of `render_recorder`: clears audio and both
transcription fields. -/
def render_recorder_rerecord (img : ImageRec) : ImageRec :=
  { img with audio_bytes := none, transcription := "", transcription_original := "" }

/-- The restore-original action of `render_recorder`. -/
def render_recorder_restore (img : ImageRec) : ImageRec :=
  { img with transcription := img.transcription_original }

/-- A manual edit of the transcription text area in `render_recorder`. -/
def render_recorder_edit (img : ImageRec) (text : String) : ImageRec :=
  { img with transcription := text }

/-- The image records reachable in a session: created by `add_image` and
then mutated only by the labeler and recorder steps above. -/
inductive ImgReachable : ImageRec → Prop where
  | init (filename : String) (b : List Nat) (doctor : String) (now : Rat) :
      ImgReachable (freshImage filename b doctor now)
  | labeler (img : ImageRec) (doctor : String) (new_label : Option String)
      (choices : String → Option Nat) (h : ImgReachable img) :
      ImgReachable (render_labeler_step img doctor new_label choices)
  | transcribe (img : ImageRec) (audio : List Nat) (text : String)
      (h : ImgReachable img) : ImgReachable (render_recorder_transcribe img audio text)
  | rerecord (img : ImageRec) (h : ImgReachable img) :
      ImgReachable (render_recorder_rerecord img)
  | restore (img : ImageRec) (h : ImgReachable img) :
      ImgReachable (render_recorder_restore img)
  | edit (img : ImageRec) (text : String) (h : ImgReachable img) :
      ImgReachable (render_recorder_edit img text)

/-- The three LOCS severity fields are absent from the record. -/
def sevAbsent (img : ImageRec) : Prop :=
  img.locs_data.lookup "nuclear_opalescence" = none ∧
  img.locs_data.lookup "nuclear_color" = none ∧
  img.locs_data.lookup "cortical_opacity" = none

instance (img : ImageRec) : Decidable (sevAbsent img) := by
  unfold sevAbsent; infer_instance

/-! ## Export service (`services/export_service.py`)

A ZIP archive is modelled as its list of (entry name, entry data) pairs;
the `datetime.now().strftime(...)` stamps become the explicit parameter
`nowStr`. -/

/-- The payload of one ZIP entry. -/
inductive EntryData where
  | text (s : String)
  | bin (b : List Nat)
deriving Repr, DecidableEq

/-- `export_service._sanitize`: keep alphanumerics and `._- `, replace the
rest by underscores. -/
def sanitize (name : String) : String :=
  String.mk (name.data.map fun c =>
    if c.isAlphanum || c = '.' || c = '_' || c = '-' || c = ' ' then c else '_')

/-- `filename.rsplit(".", 1)[0]`: everything before the last dot, or the
whole name when there is no dot. -/
def baseName (filename : String) : String :=
  let dots := (filename.data.enum.filter fun p => p.2 = '.').map fun p => p.1
  match dots.getLast? with
  | none => filename
  | some i => String.mk (filename.data.take i)

/-- `json.dumps` of a plain string. -/
def jsonString (s : String) : String :=
  "\"" ++ jsonEscape s ++ "\""

/-- `export_service._image_metadata`, rendered to JSON text. -/
def imageMetadataJson (img : ImageRec) : String :=
  "\x7b" ++ String.intercalate ", "
    [ "\"filename\": " ++ jsonString img.filename
    , "\"label\": " ++ (match img.label with | some l => jsonString l | none => "null")
    , "\"locs_data\": " ++ locsJson img.locs_data
    , "\"transcription\": " ++ jsonString img.transcription
    , "\"transcription_original\": " ++ jsonString img.transcription_original
    , "\"doctor\": " ++ jsonString img.labeled_by
    , "\"timestamp\": " ++ jsonString (toString img.timestamp)
    , "\"has_audio\": " ++ (if img.audio_bytes.isSome then "true" else "false")
    ] ++ "\x7d"

/-- Whether the Python `csv.writer` (default dialect) must quote a field. -/
def csvNeedsQuote (s : String) : Bool :=
  s.data.any fun c => c = ',' || c = '"' || c = '\n' || c = '\r'

/-- Minimal quoting of one CSV field, as in the Python `csv.writer`. -/
def csvQuote (s : String) : String :=
  if csvNeedsQuote s then
    "\"" ++
      s.data.foldl (fun acc c =>
        acc ++ (if c = '"' then "\"\"" else String.singleton c)) "" ++
      "\""
  else s

/-- One `csv.writer.writerow` call: comma-joined quoted fields plus the
default `\r\n` terminator. -/
def csvRow (fields : List String) : String :=
  String.intercalate "," (fields.map csvQuote) ++ "\r\n"

/-- `locs.get(fid, "")` as the string handed to the CSV writer: the stored
integer rendered by `str`, or the empty string when the field is absent. -/
def locsField (locs : List (String × Nat)) (fid : String) : String :=
  match locs.lookup fid with
  | some v => toString v
  | none => ""

/-- `label_map.get(img["label"], "")` as the string handed to the CSV
writer. -/
def labelCodeField (l : String) : String :=
  match labelCode l with
  | some c => toString c
  | none => ""

/-- The header row of `export_huggingface_csv`. -/
def hfHeader : List String :=
  [ "filename", "label", "label_code"
  , "nuclear_opalescence", "nuclear_color", "cortical_opacity"
  , "transcription", "doctor" ]

/-- The data row `export_huggingface_csv` writes for a labeled image. -/
def hfRowFields (img : ImageRec) (l : String) : List String :=
  [ img.filename, l, labelCodeField l
  , locsField img.locs_data "nuclear_opalescence"
  , locsField img.locs_data "nuclear_color"
  , locsField img.locs_data "cortical_opacity"
  , img.transcription, img.labeled_by ]

/-- `export_service.export_huggingface_csv`: header row, then one row per
labeled image in upload order (images with `label is None` are skipped).
Returns (csv text, suggested filename).  In Python a stale id in
`image_order` would raise `KeyError`; the `none` branch of the lookup is
unreachable under the session invariant. -/
def export_huggingface_csv (s : SessionState) (nowStr : String) : String × String :=
  let body := s.image_order.foldl
    (fun acc img_id =>
      match s.images.lookup img_id with
      | none => acc
      | some img =>
        match img.label with
        | none => acc
        | some l => acc ++ csvRow (hfRowFields img l))
    (csvRow hfHeader)
  (body, "dataset_hf_" ++ nowStr ++ ".csv")

/-- One line of `export_jsonl` for a labeled image. -/
def jsonlLine (img : ImageRec) (l : String) : String :=
  "\x7b" ++ String.intercalate ", "
    [ "\"filename\": " ++ jsonString img.filename
    , "\"label\": " ++ jsonString l
    , "\"label_code\": " ++ (match labelCode l with | some c => toString c | none => jsonString "")
    , "\"nuclear_opalescence\": " ++
        (match img.locs_data.lookup "nuclear_opalescence" with
         | some v => toString v | none => "null")
    , "\"nuclear_color\": " ++
        (match img.locs_data.lookup "nuclear_color" with
         | some v => toString v | none => "null")
    , "\"cortical_opacity\": " ++
        (match img.locs_data.lookup "cortical_opacity" with
         | some v => toString v | none => "null")
    , "\"transcription\": " ++ jsonString img.transcription
    , "\"doctor\": " ++ jsonString img.labeled_by
    ] ++ "\x7d"

/-- `export_service.export_jsonl`: one JSON object per labeled image in
upload order.  Returns (jsonl text, suggested filename). -/
def export_jsonl (s : SessionState) (nowStr : String) : String × String :=
  let lines := s.image_order.foldl
    (fun acc img_id =>
      match s.images.lookup img_id with
      | none => acc
      | some img =>
        match img.label with
        | none => acc
        | some l => acc ++ [jsonlLine img l])
    ([] : List String)
  (String.intercalate "\n" lines, "dataset_" ++ nowStr ++ ".jsonl")

/-- `export_service.export_single_image`: the per-image ZIP.  Audio is
included only when `img["audio_bytes"]` is truthy (present and
non-empty). -/
def export_single_image (s : SessionState) (image_id : String) :
    List (String × EntryData) × String :=
  match s.images.lookup image_id with
  | none => ([], "")
  | some img =>
    let folder := "etiquetado_" ++ sanitize (baseName img.filename)
    let audioEntries :=
      if (img.audio_bytes.getD []).isEmpty then []
      else [(folder ++ "/audio_dictado.wav", EntryData.bin (img.audio_bytes.getD []))]
    ( [ (folder ++ "/metadata.json", EntryData.text (imageMetadataJson img))
      , (folder ++ "/transcripcion.txt", EntryData.text img.transcription) ]
        ++ audioEntries
    , folder ++ ".zip" )

/-- The summary CSV row of `export_full_session` for one image. -/
def summaryRowFields (img : ImageRec) : List String :=
  [ img.filename
  , img.label.getD ""
  , locsField img.locs_data "nuclear_opalescence"
  , locsField img.locs_data "nuclear_color"
  , locsField img.locs_data "cortical_opacity"
  , if (img.audio_bytes.getD []).isEmpty then "no" else "yes"
  , if img.transcription = "" then "no" else "yes"
  , img.labeled_by ]

/-- Zero-padding to width 3, as in the `f"{idx:03d}"` folder prefix. -/
def pad3 (n : Nat) : String :=
  let s := toString n
  if s.length ≥ 3 then s else String.mk (List.replicate (3 - s.length) '0') ++ s

/-- The per-image folder of `export_full_session`. -/
def imageFolderEntries (root : String) (idx : Nat) (img : ImageRec) :
    List (String × EntryData) :=
  let folder := root ++ "/" ++ pad3 idx ++ "_" ++ sanitize (baseName img.filename)
  [ (folder ++ "/metadata.json", EntryData.text (imageMetadataJson img))
  , (folder ++ "/transcripcion.txt", EntryData.text img.transcription) ]
    ++ (if (img.audio_bytes.getD []).isEmpty then []
        else [(folder ++ "/audio_dictado.wav", EntryData.bin (img.audio_bytes.getD []))])

/-- `export_service.export_full_session`: summary CSV, full metadata JSON
and one folder per image, all below a root folder named from
`datetime.now()` (the explicit `nowStr`). -/
def export_full_session (s : SessionState) (nowStr : String) :
    List (String × EntryData) × String :=
  let root := "sesion_" ++ nowStr
  let summaryCsv := s.image_order.foldl
    (fun acc img_id =>
      match s.images.lookup img_id with
      | none => acc
      | some img => acc ++ csvRow (summaryRowFields img))
    (csvRow [ "filename", "label", "nuclear_opalescence", "nuclear_color"
            , "cortical_opacity", "has_audio", "has_transcription", "doctor" ])
  let allMeta := "[" ++ String.intercalate ", "
    (s.image_order.foldl
      (fun acc img_id =>
        match s.images.lookup img_id with
        | none => acc
        | some img => acc ++ [imageMetadataJson img])
      ([] : List String)) ++ "]"
  let perImage := s.image_order.enum.foldl
    (fun acc p =>
      match s.images.lookup p.2 with
      | none => acc
      | some img => acc ++ imageFolderEntries root (p.1 + 1) img)
    ([] : List (String × EntryData))
  ( [ (root ++ "/resumen.csv", EntryData.text summaryCsv)
    , (root ++ "/etiquetas.json", EntryData.text allMeta) ] ++ perImage
  , root ++ ".zip" )

/-! ## Upload component (`components/uploader.py`) -/

/-- Modelled from the spec: `validate_image_bytes` is imported by
`components/uploader.py` from `utils`, but no definition of it appears
under `src/` (the `utils.py` present there is an earlier iteration without
it).  The spec says uploads are "validated by magic-byte signature (not
trusted extension)" against the small whitelist of formats
(`config.ALLOWED_EXTENSIONS`: jpg/jpeg/png/tif).  JPEG, PNG and both TIFF
byte orders are the magic signatures of that whitelist. -/
def hasMagicSignature (raw : List Nat) : Bool :=
  decide ([0xFF, 0xD8, 0xFF] <+: raw) ||
  decide ([0x89, 0x50, 0x4E, 0x47, 0x0D, 0x0A, 0x1A, 0x0A] <+: raw) ||
  decide ([0x49, 0x49, 0x2A, 0x00] <+: raw) ||
  decide ([0x4D, 0x4D, 0x00, 0x2A] <+: raw)

/-- Modelled from the spec: content validation by magic-byte signature with
the per-file size ceiling `config.MAX_UPLOAD_SIZE_MB`. -/
def validate_image_bytes (raw : List Nat) : Bool :=
  hasMagicSignature raw && decide (raw.length ≤ MAX_UPLOAD_SIZE_MB * 1024 * 1024)

/-- One file handed to the uploader widget. -/
structure UploadedFile where
  name : String
  content : List Nat
deriving Repr, DecidableEq

/-- Accumulator of the classification loop of `render_uploader`. -/
structure ClassifyAcc where
  new_files : List (String × List Nat)
  skipped_invalid : Nat
  session_duplicates : List String
  processed : List String
deriving Repr, DecidableEq

/-- The classification loop of `render_uploader`: session duplicates are
recorded (once) and skipped, files already processed in this uploader cycle
are skipped, invalid files are counted, the rest become `new_files`. -/
def classifyFiles (existing : List String) : ClassifyAcc → List UploadedFile → ClassifyAcc
  | acc, [] => acc
  | acc, uf :: rest =>
    if existing.contains uf.name then
      if acc.processed.contains uf.name then classifyFiles existing acc rest
      else
        classifyFiles existing
          { acc with
              session_duplicates := acc.session_duplicates ++ [uf.name]
              processed := acc.processed ++ [uf.name] }
          rest
    else if acc.processed.contains uf.name then classifyFiles existing acc rest
    else if validate_image_bytes uf.content then
      classifyFiles existing { acc with new_files := acc.new_files ++ [(uf.name, uf.content)] } rest
    else classifyFiles existing { acc with skipped_invalid := acc.skipped_invalid + 1 } rest

/-- Accumulator of the ingestion loop of `render_uploader`.  The
`uuid.uuid4()` calls of `add_image` become the opaque fresh names
`"uploaded-" ++ toString next_id`. -/
structure IngestAcc where
  state : SessionState
  existing : List String
  processed : List String
  next_id : Nat
  count : Nat
deriving Repr, DecidableEq

/-- The ingestion loop of `render_uploader` over `new_files`. -/
def ingestFiles (now : Rat) : IngestAcc → List (String × List Nat) → IngestAcc
  | acc, [] => acc
  | acc, (name, raw) :: rest =>
    if acc.existing.contains name then ingestFiles now acc rest
    else if acc.processed.contains name then ingestFiles now acc rest
    else
      ingestFiles now
        { state := add_image acc.state ("uploaded-" ++ toString acc.next_id) name raw now
          existing := acc.existing ++ [name]
          processed := acc.processed ++ [name]
          next_id := acc.next_id + 1
          count := acc.count + 1 }
        rest

/-- The outcome of one `render_uploader` pass. -/
structure UploadOutcome where
  state : SessionState
  processed : List String
  new_count : Nat
  skipped_invalid : Nat
  session_duplicates : List String
  pending : Bool
deriving Repr, DecidableEq

/-- One pass of `render_uploader`, starting from a state with no pending
dialog: classify the uploaded files, defer everything to the re-label
review dialog when some new file was previously labeled in the audit store
(`prevLabeled`), otherwise ingest the new files, count the invalid ones and
record the session duplicates for the informational dialog. -/
def render_uploader (s : SessionState) (processed : List String) (next_id : Nat)
    (prevLabeled : String → Bool) (files : List UploadedFile) (now : Rat) :
    UploadOutcome :=
  if files.isEmpty then
    { state := s, processed := processed, new_count := 0, skipped_invalid := 0
      session_duplicates := [], pending := false }
  else
    let existing := s.images.map fun p => p.2.filename
    let c := classifyFiles existing
      { new_files := [], skipped_invalid := 0, session_duplicates := [], processed := processed }
      files
    if ¬ c.new_files.isEmpty ∧ c.new_files.any (fun nf => prevLabeled nf.1) then
      { state := s, processed := c.processed, new_count := 0
        skipped_invalid := c.skipped_invalid
        session_duplicates := c.session_duplicates, pending := true }
    else
      let ing := ingestFiles now
        { state := s, existing := existing, processed := c.processed
          next_id := next_id, count := 0 }
        c.new_files
      let st1 :=
        if ing.count > 0 ∧ ing.state.current_image_id = none then
          { ing.state with current_image_id := ing.state.image_order.head? }
        else ing.state
      { state := st1, processed := ing.processed, new_count := ing.count
        skipped_invalid := c.skipped_invalid
        session_duplicates := c.session_duplicates, pending := false }

/-! ## Derived notions used by the statements below -/

/-- Concatenation of a list of strings. -/
def concatAll : List String → String
  | [] => ""
  | a :: l => a ++ concatAll l

/-- The audit rows for one `(image_filename, session_id)` pair. -/
def pairRows (db : List AnnRow) (f s : String) : List AnnRow :=
  db.filter (matchesPair f s)

/-- All primary keys of the audit table are distinct (as SQLite
guarantees for `id INTEGER PRIMARY KEY AUTOINCREMENT`). -/
def ridsNodup (db : List AnnRow) : Prop :=
  (db.map fun r => r.rid).Nodup

/-- The per-call arguments of one `save_or_update_annotation` call for a
fixed `(image_filename, session_id)` pair. -/
structure CallArgs where
  label : Option String
  transcription : String
  doctor_name : String
  locs_data : Option (List (String × Nat))
  timestamp : Nat
deriving Repr, DecidableEq

instance (db : List AnnRow) : Decidable (ridsNodup db) := by
  unfold ridsNodup; infer_instance

/-- A sequence of upsert calls for the same `(filename, session)` pair. -/
def applyCalls (db : List AnnRow) (f s : String) (calls : List CallArgs) : List AnnRow :=
  calls.foldl
    (fun d c =>
      save_or_update_annotation d f c.label c.transcription c.doctor_name s
        c.locs_data c.timestamp)
    db

/-- The current selection is `None` or one of the stored image ids. -/
def currentOk (s : SessionState) : Bool :=
  match s.current_image_id with
  | none => true
  | some c => decide (c ∈ s.image_order)

/-- The session-store consistency invariant: `image_order` lists exactly
the keys of `images` in insertion order without duplicates, and the
current selection (if any) is one of them. -/
def SessionInv (s : SessionState) : Prop :=
  s.images.map Prod.fst = s.image_order ∧ s.image_order.Nodup ∧ currentOk s = true

instance (s : SessionState) : Decidable (SessionInv s) := by
  unfold SessionInv; infer_instance

/-! ## Concrete states used by the witnesses -/

/-- A fully labeled cataract image with severity values (3, 2, 1). -/
def exImgCataract : ImageRec :=
  { filename := "a.jpg"
    bytes := some [0xFF, 0xD8, 0xFF, 0x00]
    label := some "Cataract"
    audio_bytes := none
    transcription := ""
    transcription_original := ""
    timestamp := 0
    labeled_by := ""
    locs_data :=
      [("nuclear_opalescence", 3), ("nuclear_color", 2), ("cortical_opacity", 1)] }

/-- A one-image session holding `exImgCataract`. -/
def exState : SessionState :=
  { session_id := "sid-1"
    images := [("i1", exImgCataract)]
    image_order := ["i1"]
    current_image_id := some "i1"
    last_activity := some 0
    doctor_name := ""
    confirm_end_session := false }

/-- An image with existing transcription text. -/
def exImgText : ImageRec :=
  { filename := "b.jpg"
    bytes := some [0xFF, 0xD8, 0xFF, 0x01]
    label := none
    audio_bytes := none
    transcription := "hello"
    transcription_original := "hola"
    timestamp := 0
    labeled_by := ""
    locs_data := [] }

/-- An upload whose name collides with the stored `a.jpg`. -/
def exDupFile : UploadedFile :=
  { name := "a.jpg", content := [0xFF, 0xD8, 0xFF, 0x02] }

/-- An upload whose bytes carry no valid image signature. -/
def exBadFile : UploadedFile :=
  { name := "c.jpg", content := [0x00, 0x01] }

/-- The outcome of the first genuine upload of `a.jpg` (valid JPEG bytes)
into a fresh session: the image is ingested and its filename enters
`_processed_uploads`. -/
def exFirstUpload : UploadOutcome :=
  render_uploader (init_session none "sid-1" 0) [] 0 (fun _ => false) [exDupFile] 0

/-- A later second upload of the very same file, in the state the program
actually reaches: the filename is now both among the session images and in
`_processed_uploads`. -/
def exSecondUpload : UploadOutcome :=
  render_uploader exFirstUpload.state exFirstUpload.processed 1 (fun _ => false)
    [exDupFile] 0

/-- Two successive upsert calls for the same pair. -/
def exCallA : CallArgs :=
  { label := some "Normal", transcription := "", doctor_name := "dr a"
    locs_data := none, timestamp := 1 }

/-- The second (last) upsert call for the same pair. -/
def exCallB : CallArgs :=
  { label := some "Cataract", transcription := "t", doctor_name := "dr b"
    locs_data := some [("nuclear_opalescence", 3)], timestamp := 2 }

/-! ## Theorems -/

/-- C7: for every labeling action, a raising audit-store write
(`writeFails = true`, the swallowed exception of `_save_to_db`) never
propagates — the step is total — and the in-memory image record after the
action is exactly the one of the pure labeling step, so the label,
`labeled_by` and `locs_data` mutations applied before the write are
retained unchanged whether or not the write fails. -/
theorem c7_audit_failure_nonfatal (img : ImageRec) (db : List AnnRow)
    (doctor sid : String) (new_label : Option String)
    (choices : String → Option Nat) (ts : Nat) (writeFails : Bool) :
    (render_labeler_step_db img db doctor sid new_label choices ts writeFails).1 =
      render_labeler_step img doctor new_label choices := by
  simp only [render_labeler_step_db, render_labeler_step]
  split
  · rfl
  · rfl

/-- C10: transcribing a new recording appends the transcript to non-empty
existing text — for both `transcription` and `transcription_original` —
separated by a single space, and replaces it only when the existing text is
empty. -/
theorem c10_transcription_append (img : ImageRec) (audio : List Nat) (text : String) :
    (img.transcription ≠ "" →
      (render_recorder_transcribe img audio text).transcription =
        img.transcription ++ " " ++ text) ∧
    (img.transcription = "" →
      (render_recorder_transcribe img audio text).transcription = text) ∧
    (img.transcription_original ≠ "" →
      (render_recorder_transcribe img audio text).transcription_original =
        img.transcription_original ++ " " ++ text) ∧
    (img.transcription_original = "" →
      (render_recorder_transcribe img audio text).transcription_original = text) := by
  refine ⟨?_, ?_, ?_, ?_⟩ <;> intro h <;> simp [render_recorder_transcribe, h]

/-- Witness for C10 at a concrete image with non-empty text in both
fields. -/
theorem c10_transcription_append_witness :
    exImgText.transcription ≠ "" ∧
    (render_recorder_transcribe exImgText [7] "world").transcription =
      exImgText.transcription ++ " " ++ "world" ∧
    (render_recorder_transcribe exImgText [7] "world").transcription_original =
      exImgText.transcription_original ++ " " ++ "world" :=
  ⟨by decide,
   (c10_transcription_append exImgText [7] "world").1 (by decide),
   (c10_transcription_append exImgText [7] "world").2.2.1 (by decide)⟩

/-- C8 counterexample: `export_full_session` embeds `datetime.now()` in the
root folder name of the archive, so two invocations under the identical session
state but at different clock times produce different archives — the claim
that all four exports yield identical output bytes under identical session
state is false for `export_full_session`. -/
theorem c8_counterexample :
    (export_full_session exState "2024-01-01_1200").1 ≠
      (export_full_session exState "2024-01-01_1201").1 := by
  decide

/-- C8 amended: all four exports are deterministic functions of the session
state and the invocation clock time and mutate no session state;
`export_single_image` reads no clock at all, the CSV and JSONL bytes are
clock-independent (the clock only enters their suggested download
filenames), while `export_full_session` embeds the clock stamp in its root
folder name (and archive bytes). -/
theorem c8_exports_clock (s : SessionState) (t1 t2 : String) :
    (export_huggingface_csv s t1).1 = (export_huggingface_csv s t2).1 ∧
    (export_jsonl s t1).1 = (export_jsonl s t2).1 ∧
    (export_huggingface_csv s t1).2 = "dataset_hf_" ++ t1 ++ ".csv" ∧
    (export_jsonl s t1).2 = "dataset_" ++ t1 ++ ".jsonl" ∧
    (export_full_session s t1).2 = "sesion_" ++ t1 ++ ".zip" :=
  ⟨rfl, rfl, rfl, rfl, rfl⟩

/-- C6: the timeout check fires exactly when the elapsed minutes since
`last_activity` strictly exceed the threshold (and never when there is no
`last_activity`); after `clear_session` followed by `init_session` with a
freshly generated id, the session has no images, no order, no selection
(hence no audio and no transcriptions) and a new identity. -/
theorem c6_timeout_check_and_reset :
    (∀ (s : SessionState) (now tm : Rat),
        check_session_timeout s now tm = true ↔
          ∃ last, s.last_activity = some last ∧ (now - last) / 60 > tm) ∧
    (∀ (s : SessionState) (new_sid : String) (now : Rat),
        new_sid ≠ s.session_id →
          (init_session (clear_session s) new_sid now).images = [] ∧
          (init_session (clear_session s) new_sid now).image_order = [] ∧
          (init_session (clear_session s) new_sid now).current_image_id = none ∧
          (init_session (clear_session s) new_sid now).session_id ≠ s.session_id) := by
  constructor
  · intro s now tm
    unfold check_session_timeout
    cases h : s.last_activity with
    | none => simp
    | some last => simp
  · intro s new_sid now hne
    exact ⟨rfl, rfl, rfl, hne⟩

/-- Witness for C6: a fresh id differing from the stored one yields a wiped
session with the new identity. -/
theorem c6_timeout_check_and_reset_witness :
    ("sid-2" : String) ≠ exState.session_id ∧
    (init_session (clear_session exState) "sid-2" 5).images = [] ∧
    (init_session (clear_session exState) "sid-2" 5).session_id ≠ exState.session_id := by
  have h := c6_timeout_check_and_reset.2 exState "sid-2" 5 (by decide)
  exact ⟨by decide, h.1, h.2.2.2⟩

/-- C5 counterexample: replaying the program, a first upload ingests
`a.jpg` (and puts its filename into `_processed_uploads`, which nothing
ever empties while the image exists); a second upload of the same file is
then a no-op on the store but is silently skipped — `session_duplicates`
stays empty — so the claim that the filename is recorded as a session
duplicate is false in the state the program actually reaches. -/
theorem c5_counterexample :
    (exFirstUpload.state.images.map fun p => p.2.filename).contains exDupFile.name
      = true ∧
    exFirstUpload.processed.contains exDupFile.name = true ∧
    exSecondUpload.state = exFirstUpload.state ∧
    exSecondUpload.new_count = 0 ∧
    exSecondUpload.session_duplicates = [] := by
  decide

/-- C5 amended: uploading a file whose filename is already among the
images of the session is a no-op on the session store — the state (images
mapping and image order included) is unchanged and nothing is ingested —
and the filename is recorded as a session duplicate exactly when it is not
yet in `_processed_uploads`; a filename already in `_processed_uploads`
(the case of every re-upload after a real ingestion) is skipped
silently. -/
theorem c5_session_duplicate_silent_noop (s : SessionState) (processed : List String)
    (next_id : Nat) (prevLabeled : String → Bool) (f : UploadedFile) (now : Rat)
    (hmem : (s.images.map fun p => p.2.filename).contains f.name = true) :
    (render_uploader s processed next_id prevLabeled [f] now).state = s ∧
    (render_uploader s processed next_id prevLabeled [f] now).new_count = 0 ∧
    (render_uploader s processed next_id prevLabeled [f] now).session_duplicates =
      (if processed.contains f.name = true then [] else [f.name]) := by
  by_cases hproc : processed.contains f.name = true
  · simp only [render_uploader, classifyFiles, ingestFiles, hmem, hproc]
    simp [hproc]
  · have hp : processed.contains f.name = false := eq_false_of_ne_true hproc
    simp only [render_uploader, classifyFiles, ingestFiles, hmem, hp]
    simp [hp]

/-- Witness for the amended C5 in the silently-skipped case: with `a.jpg`
already processed, re-uploading it changes nothing and records no
duplicate. -/
theorem c5_session_duplicate_silent_noop_witness :
    (exState.images.map fun p => p.2.filename).contains exDupFile.name = true ∧
    (render_uploader exState ["a.jpg"] 0 (fun _ => false) [exDupFile] 0).state =
      exState ∧
    (render_uploader exState ["a.jpg"] 0 (fun _ => false) [exDupFile] 0).session_duplicates =
      (if (["a.jpg"] : List String).contains exDupFile.name = true then []
       else [exDupFile.name]) := by
  have h := c5_session_duplicate_silent_noop exState ["a.jpg"] 0 (fun _ => false)
    exDupFile 0 (by decide)
  exact ⟨by decide, h.1, h.2.2⟩

/-- The final label of a labeler pass is the selected label when one is
selected, and the stored label otherwise. -/
theorem render_labeler_step_label (img : ImageRec) (d : String) (nl : Option String)
    (ch : String → Option Nat) :
    (render_labeler_step img d nl ch).label = effectiveLabel img nl := by
  unfold render_labeler_step labelChanged effectiveLabel
  cases nl with
  | none => simp only [Option.isSome_none, Bool.false_and, Bool.false_eq_true, if_false]; split <;> rfl
  | some l =>
    by_cases h : (some l : Option String) = img.label
    · simp only [h, bne_self_eq_false, Option.isSome_some, Bool.and_false,
        Bool.false_eq_true, if_false]
      split <;> simp [h]
    · simp only [Option.isSome_some, Bool.true_and, bne_iff_ne, ne_eq, h,
        not_false_iff, if_true]
      split <;> simp

/-- When the selected label was already stored (no label change), the final
label is the stored one. -/
theorem labelChanged_false_effective (img : ImageRec) (nl : Option String)
    (h : labelChanged img nl = false) :
    effectiveLabel img nl = img.label := by
  cases nl with
  | none => rfl
  | some l =>
    simp only [labelChanged, Option.isSome_some, Bool.true_and, bne_eq_false_iff_eq] at h
    simp [effectiveLabel, h]

/-- When the pass does not end on label "Cataract", the LOCS data is
cleared on a label change and untouched otherwise. -/
theorem render_labeler_step_locs_of_ne (img : ImageRec) (d : String)
    (nl : Option String) (ch : String → Option Nat)
    (h : effectiveLabel img nl ≠ some "Cataract") :
    (render_labeler_step img d nl ch).locs_data =
      if labelChanged img nl then [] else img.locs_data := by
  unfold render_labeler_step
  by_cases hc : labelChanged img nl = true
  · have hnl : nl ≠ some "Cataract" := by
      cases nl with
      | none => simp [labelChanged] at hc
      | some l => exact fun hh => h (by rw [hh]; rfl)
    simp [hc, hnl, h]
  · simp [hc, h]

/-- Every reachable image record with a label other than "Cataract" has no
severity fields. -/
theorem reachable_sevAbsent (img : ImageRec) (h : ImgReachable img) :
    img.label ≠ some "Cataract" → sevAbsent img := by
  induction h with
  | init f b d now => exact fun _ => ⟨rfl, rfl, rfl⟩
  | labeler img d nl ch hr ih =>
    intro hlab
    rw [render_labeler_step_label] at hlab
    have hl := render_labeler_step_locs_of_ne img d nl ch hlab
    by_cases hc : labelChanged img nl = true
    · rw [if_pos hc] at hl
      unfold sevAbsent
      rw [hl]
      exact ⟨rfl, rfl, rfl⟩
    · rw [if_neg hc] at hl
      have hval : labelChanged img nl = false := eq_false_of_ne_true hc
      have heff := labelChanged_false_effective img nl hval
      rw [heff] at hlab
      have hs := ih hlab
      unfold sevAbsent at hs ⊢
      rw [hl]
      exact hs
  | transcribe img a t hr ih => exact fun hlab => ih hlab
  | rerecord img hr ih => exact fun hlab => ih hlab
  | restore img hr ih => exact fun hlab => ih hlab
  | edit img t hr ih => exact fun hlab => ih hlab

/-- C2: for every reachable image record whose label is not "Cataract" the
three severity fields are absent, and the labeler pass that switches a
"Cataract" image to any other label clears all previously set severity
fields. -/
theorem c2_severity_fields_invariant :
    (∀ img : ImageRec, ImgReachable img → img.label ≠ some "Cataract" → sevAbsent img) ∧
    (∀ (img : ImageRec) (doctor l : String) (choices : String → Option Nat),
        img.label = some "Cataract" → l ≠ "Cataract" →
        (render_labeler_step img doctor (some l) choices).locs_data = []) := by
  constructor
  · exact reachable_sevAbsent
  · intro img doctor l ch hlab hne
    have hch : labelChanged img (some l) = true := by
      simp [labelChanged, hlab, hne]
    have hl := render_labeler_step_locs_of_ne img doctor (some l) ch
      (by simpa [effectiveLabel] using hne)
    rw [if_pos hch] at hl
    exact hl

/-- Witness for C2: a freshly uploaded image is reachable, unlabeled and
severity-free, and relabeling the concrete cataract image as "Normal"
clears its (3, 2, 1) severity data. -/
theorem c2_severity_fields_invariant_witness :
    (freshImage "a.jpg" [0] "" 0).label ≠ some "Cataract" ∧
    sevAbsent (freshImage "a.jpg" [0] "" 0) ∧
    exImgCataract.label = some "Cataract" ∧
    (render_labeler_step exImgCataract "dr" (some "Normal") fun _ => none).locs_data =
      [] :=
  ⟨by decide,
   c2_severity_fields_invariant.1 _ (ImgReachable.init "a.jpg" [0] "" 0) (by decide),
   by decide,
   c2_severity_fields_invariant.2 exImgCataract "dr" "Normal" (fun _ => none)
     (by decide) (by decide)⟩

/-- A successful association-list lookup means the key is among the mapped
first components. -/
theorem lookup_isSome_mem (l : List (String × ImageRec)) (k : String)
    (h : (l.lookup k).isSome = true) : k ∈ l.map Prod.fst := by
  induction l with
  | nil => simp [List.lookup] at h
  | cons p rest ih =>
    obtain ⟨a, b⟩ := p
    rw [List.lookup] at h
    by_cases hk : k == a
    · have : k = a := by simpa using hk
      simp [this]
    · have hk2 : (k == a) = false := by simpa using hk
      rw [hk2] at h
      right
      exact ih h

/-- C9: starting from `init_session`, the operations `add_image` (with a
fresh uuid), `remove_image` and `set_current_image` preserve the
session-store invariant — `image_order` lists exactly the keys of `images`
in upload order without duplicates and the selection is `None` or a stored
key — and removing the currently selected image resets the selection to the
first remaining image (or `None`). -/
theorem c9_session_store_invariant :
    (∀ (sid : String) (now : Rat), SessionInv (init_session none sid now)) ∧
    (∀ (s : SessionState) (img_id fn : String) (b : List Nat) (now : Rat),
        SessionInv s → img_id ∉ s.image_order →
        SessionInv (add_image s img_id fn b now)) ∧
    (∀ (s : SessionState) (img_id : String),
        SessionInv s → SessionInv (remove_image s img_id)) ∧
    (∀ (s : SessionState) (img_id : String) (now : Rat),
        SessionInv s → SessionInv (set_current_image s img_id now)) ∧
    (∀ (s : SessionState) (img_id : String),
        s.current_image_id = some img_id →
        (remove_image s img_id).current_image_id =
          (s.image_order.erase img_id).head?) := by
  refine ⟨?_, ?_, ?_, ?_, ?_⟩
  · intro sid now
    exact ⟨rfl, List.nodup_nil, rfl⟩
  · intro s img_id fn b now hinv hfresh
    obtain ⟨h1, h2, h3⟩ := hinv
    refine ⟨?_, ?_, ?_⟩
    · simp [add_image, update_activity, h1]
    · simp only [add_image, update_activity]
      rw [List.nodup_append]
      refine ⟨h2, List.nodup_singleton _, ?_⟩
      intro x hx hx1
      simp only [List.mem_singleton] at hx1
      exact hfresh (hx1 ▸ hx)
    · unfold currentOk at h3 ⊢
      simp only [add_image, update_activity]
      cases hc : s.current_image_id with
      | none => rfl
      | some c =>
        rw [hc] at h3
        simp only [decide_eq_true_eq] at h3 ⊢
        exact List.mem_append_left _ h3
  · intro s img_id hinv
    obtain ⟨h1, h2, h3⟩ := hinv
    refine ⟨?_, ?_, ?_⟩
    · simp only [remove_image]
      rw [List.filter_map]
      have hfst : ∀ p : String × ImageRec,
          ((fun q => if q.1 = img_id then
              (q.1, { q.2 with bytes := none, audio_bytes := none }) else q) p).1 = p.1 := by
        intro p
        by_cases hp : p.1 = img_id <;> simp [hp]
      rw [List.filter_congr (by intro p hp; rw [Function.comp_apply, hfst p])]
      rw [List.map_map]
      rw [List.map_congr_left (fun p _ => by rw [Function.comp_apply, hfst p])]
      rw [h2.erase_eq_filter img_id, ← h1, List.filter_map]
      rfl
    · exact h2.erase img_id
    · simp only [remove_image]
      unfold currentOk
      by_cases hc : s.current_image_id = some img_id
      · simp only [hc, if_pos]
        cases hh : (s.image_order.erase img_id).head? with
        | none => rfl
        | some c =>
          simp only [decide_eq_true_eq]
          exact List.mem_of_mem_head? (by simp [hh])
      · simp only [if_neg hc]
        cases hcur : s.current_image_id with
        | none => rfl
        | some c =>
          unfold currentOk at h3
          rw [hcur] at h3
          simp only [decide_eq_true_eq] at h3 ⊢
          have hne : c ≠ img_id := fun hh => hc (by rw [hcur, hh])
          exact (List.mem_erase_of_ne hne).2 h3
  · intro s img_id now hinv
    obtain ⟨h1, h2, h3⟩ := hinv
    unfold set_current_image
    by_cases hl : (s.images.lookup img_id).isSome = true
    · simp only [hl, if_pos]
      refine ⟨h1, h2, ?_⟩
      unfold currentOk update_activity
      simp only [decide_eq_true_eq]
      exact h1 ▸ lookup_isSome_mem s.images img_id hl
    · simp only [hl]
      simp only [Bool.false_eq_true, if_false]
      exact ⟨h1, h2, h3⟩
  · intro s img_id hc
    simp [remove_image, hc]

/-- Witness for C9: the invariant holds for the concrete one-image state
and survives removing its (selected) image, which empties the selection. -/
theorem c9_session_store_invariant_witness :
    SessionInv exState ∧ SessionInv (remove_image exState "i1") ∧
    exState.current_image_id = some "i1" ∧
    (remove_image exState "i1").current_image_id =
      (exState.image_order.erase "i1").head? :=
  ⟨by decide,
   c9_session_store_invariant.2.2.1 exState "i1" (by decide),
   by decide,
   c9_session_store_invariant.2.2.2.2 exState "i1" (by decide)⟩

/-- Fold form of the HuggingFace CSV body: the row-appending left fold is
the concatenation of the per-image rows after the initial header. -/
theorem hf_body_foldl (images : List (String × ImageRec)) (order : List String)
    (init : String) :
    order.foldl
      (fun acc img_id =>
        match images.lookup img_id with
        | none => acc
        | some img =>
          match img.label with
          | none => acc
          | some l => acc ++ csvRow (hfRowFields img l))
      init =
    init ++ concatAll (order.filterMap fun img_id =>
      (images.lookup img_id).bind fun img =>
        img.label.map fun l => csvRow (hfRowFields img l)) := by
  induction order generalizing init with
  | nil => simp [concatAll]
  | cons hd tl ih =>
    simp only [List.foldl_cons, List.filterMap_cons]
    cases h : images.lookup hd with
    | none => simp [h, ih]
    | some img =>
      cases hl : img.label with
      | none => simp [h, hl, ih]
      | some l => simp [h, hl, ih, concatAll, String.append_assoc]

/-- C3: the HuggingFace CSV export is the fixed header row followed by one
CSV row per labeled image in upload order (images with `label = None` are
excluded), and for the concrete session holding `a.jpg` labeled "Cataract"
with severities (3, 2, 1), empty transcription and empty doctor, the data
row is exactly `a.jpg,Cataract,1,3,2,1,,` (label code 1). -/
theorem c3_hf_csv_format :
    (∀ (s : SessionState) (t : String),
        (export_huggingface_csv s t).1 =
          concatAll (csvRow hfHeader ::
            s.image_order.filterMap fun img_id =>
              (s.images.lookup img_id).bind fun img =>
                img.label.map fun l => csvRow (hfRowFields img l))) ∧
    (export_huggingface_csv exState "20240101_1200").1 =
      "filename,label,label_code,nuclear_opalescence,nuclear_color,cortical_opacity,transcription,doctor\r\n"
        ++ "a.jpg,Cataract,1,3,2,1,,\r\n" := by
  constructor
  · intro s t
    simp only [export_huggingface_csv]
    rw [hf_body_foldl s.images s.image_order (csvRow hfHeader)]
    rfl
  · decide

/-- Every file collected into `new_files` by the classification loop
passed content validation. -/
theorem classifyFiles_new_files_valid (existing : List String) :
    ∀ (files : List UploadedFile) (acc : ClassifyAcc),
      (∀ nf ∈ acc.new_files, validate_image_bytes nf.2 = true) →
      ∀ nf ∈ (classifyFiles existing acc files).new_files,
        validate_image_bytes nf.2 = true := by
  intro files
  induction files with
  | nil => intro acc h nf hnf; exact h nf hnf
  | cons uf rest ih =>
    intro acc h nf hnf
    rw [classifyFiles] at hnf
    by_cases h1 : existing.contains uf.name = true
    · rw [if_pos h1] at hnf
      by_cases h2 : acc.processed.contains uf.name = true
      · rw [if_pos h2] at hnf
        refine ih _ ?_ nf hnf
        exact h
      · rw [if_neg h2] at hnf
        refine ih _ ?_ nf hnf
        exact h
    · rw [if_neg h1] at hnf
      by_cases h2 : acc.processed.contains uf.name = true
      · rw [if_pos h2] at hnf
        refine ih _ ?_ nf hnf
        exact h
      · rw [if_neg h2] at hnf
        by_cases h3 : validate_image_bytes uf.content = true
        · rw [if_pos h3] at hnf
          refine ih _ ?_ nf hnf
          intro nf2 hnf2
          rcases List.mem_append.1 hnf2 with hl | hr
          · exact h nf2 hl
          · simp only [List.mem_singleton] at hr
            rw [hr]
            exact h3
        · rw [if_neg h3] at hnf
          refine ih _ ?_ nf hnf
          exact h

/-- Every image record present after the ingestion loop was already in the
session or carries the bytes of one of the ingested files. -/
theorem ingestFiles_images_mem (now : Rat) :
    ∀ (nfs : List (String × List Nat)) (acc : IngestAcc) (pr : String × ImageRec),
      pr ∈ (ingestFiles now acc nfs).state.images →
      pr ∈ acc.state.images ∨ ∃ nf ∈ nfs, pr.2.bytes = some nf.2 := by
  intro nfs
  induction nfs with
  | nil => intro acc pr h; exact Or.inl h
  | cons nf rest ih =>
    intro acc pr h
    obtain ⟨name, raw⟩ := nf
    rw [ingestFiles] at h
    split at h
    · rcases ih acc pr h with hl | ⟨nf2, hnf2, hb⟩
      · exact Or.inl hl
      · exact Or.inr ⟨nf2, List.mem_cons_of_mem _ hnf2, hb⟩
    · split at h
      · rcases ih acc pr h with hl | ⟨nf2, hnf2, hb⟩
        · exact Or.inl hl
        · exact Or.inr ⟨nf2, List.mem_cons_of_mem _ hnf2, hb⟩
      · rcases ih _ pr h with hl | ⟨nf2, hnf2, hb⟩
        · simp only [add_image, update_activity] at hl
          rcases List.mem_append.1 hl with hll | hlr
          · exact Or.inl hll
          · simp only [List.mem_singleton] at hlr
            refine Or.inr ⟨(name, raw), List.mem_cons_self _ _, ?_⟩
            rw [hlr]
            rfl
        · exact Or.inr ⟨nf2, List.mem_cons_of_mem _ hnf2, hb⟩

/-- C4: every image record the uploader adds to the session carries bytes
that passed `validate_image_bytes` (magic-byte signature plus the
`MAX_UPLOAD_SIZE_MB` ceiling); validation itself enforces both the
signature and the ceiling; and a file failing validation is rejected before
ingestion — the session is unchanged and the rejection is reported only as
the `skipped_invalid` count (the step is total, so no exception reaches the
user). -/
theorem c4_upload_validation :
    (∀ (s : SessionState) (processed : List String) (next_id : Nat)
        (prevLabeled : String → Bool) (files : List UploadedFile) (now : Rat)
        (pr : String × ImageRec),
        pr ∈ (render_uploader s processed next_id prevLabeled files now).state.images →
        pr ∈ s.images ∨ ∃ b, pr.2.bytes = some b ∧ validate_image_bytes b = true) ∧
    (∀ b : List Nat, validate_image_bytes b = true →
        hasMagicSignature b = true ∧ b.length ≤ MAX_UPLOAD_SIZE_MB * 1024 * 1024) ∧
    (∀ (s : SessionState) (processed : List String) (next_id : Nat)
        (prevLabeled : String → Bool) (f : UploadedFile) (now : Rat),
        (s.images.map fun p => p.2.filename).contains f.name = false →
        processed.contains f.name = false →
        validate_image_bytes f.content = false →
        (render_uploader s processed next_id prevLabeled [f] now).state = s ∧
        (render_uploader s processed next_id prevLabeled [f] now).skipped_invalid = 1 ∧
        (render_uploader s processed next_id prevLabeled [f] now).new_count = 0) := by
  refine ⟨?_, ?_, ?_⟩
  · intro s processed next_id prevLabeled files now pr hpr
    simp only [render_uploader] at hpr
    split at hpr
    · exact Or.inl hpr
    · split at hpr
      · exact Or.inl hpr
      · have hfin :
            ∀ pr2 : String × ImageRec,
              pr2 ∈ (ingestFiles now
                { state := s
                  existing := s.images.map fun p => p.2.filename
                  processed := (classifyFiles (s.images.map fun p => p.2.filename)
                    { new_files := [], skipped_invalid := 0, session_duplicates := []
                      processed := processed } files).processed
                  next_id := next_id, count := 0 }
                (classifyFiles (s.images.map fun p => p.2.filename)
                  { new_files := [], skipped_invalid := 0, session_duplicates := []
                    processed := processed } files).new_files).state.images →
              pr2 ∈ s.images ∨ ∃ b, pr2.2.bytes = some b ∧ validate_image_bytes b = true := by
          intro pr2 hpr2
          rcases ingestFiles_images_mem now _ _ pr2 hpr2 with hl | ⟨nf, hnf, hb⟩
          · exact Or.inl hl
          · refine Or.inr ⟨nf.2, hb, ?_⟩
            exact classifyFiles_new_files_valid _ files _ (by intro nf2 h2; cases h2) nf hnf
        split at hpr
        · exact hfin pr hpr
        · exact hfin pr hpr
  · intro b hv
    unfold validate_image_bytes at hv
    rcases Bool.and_eq_true_iff.1 hv with ⟨h1, h2⟩
    exact ⟨h1, of_decide_eq_true h2⟩
  · intro s processed next_id prevLabeled f now hmem hproc hbad
    simp only [render_uploader, classifyFiles, ingestFiles, hmem, hproc, hbad]
    simp

/-- Witness for C4 at a concrete invalid upload: the bytes `[0, 1]` carry
no image signature, so the file is rejected, counted, and nothing is
ingested. -/
theorem c4_upload_validation_witness :
    validate_image_bytes exBadFile.content = false ∧
    (render_uploader exState [] 0 (fun _ => false) [exBadFile] 0).state = exState ∧
    (render_uploader exState [] 0 (fun _ => false) [exBadFile] 0).skipped_invalid = 1 := by
  have h := c4_upload_validation.2.2 exState [] 0 (fun _ => false) exBadFile 0
    (by decide) (by decide) (by decide)
  exact ⟨by decide, h.1, h.2.1⟩

/-- Any member of a list of naturals is bounded by their right max-fold. -/
theorem le_foldr_max (l : List Nat) (a : Nat) (h : a ∈ l) : a ≤ l.foldr max 0 := by
  induction l with
  | nil => cases h
  | cons b t ih =>
    rcases List.mem_cons.1 h with rfl | h2
    · exact le_max_left _ _
    · exact le_trans (ih h2) (le_max_right _ _)

/-- Every stored primary key is below the next AUTOINCREMENT key. -/
theorem mem_rid_lt_next (db : List AnnRow) (r : AnnRow) (h : r ∈ db) :
    r.rid < nextRowId db :=
  Nat.lt_succ_of_le (le_foldr_max _ _ (List.mem_map_of_mem (fun x => x.rid) h))

/-- `updateRow` never changes the primary key. -/
theorem updateRow_rid (label : Option String) (tr doc : String) (ts : Nat)
    (lj : String) (rowId : Nat) (r : AnnRow) :
    (updateRow label tr doc ts lj rowId r).rid = r.rid := by
  unfold updateRow
  split <;> rfl

/-- `updateRow` never changes the filename or the session id, hence never
changes which `(filename, session)` pair a row belongs to. -/
theorem updateRow_matchesPair (f s : String) (label : Option String) (tr doc : String)
    (ts : Nat) (lj : String) (rowId : Nat) (r : AnnRow) :
    matchesPair f s (updateRow label tr doc ts lj rowId r) = matchesPair f s r := by
  unfold updateRow matchesPair
  split <;> rfl

/-- The upsert preserves distinctness of primary keys. -/
theorem upsert_ridsNodup (db : List AnnRow) (f : String) (label : Option String)
    (tr doc sid : String) (locs : Option (List (String × Nat))) (ts : Nat)
    (h : ridsNodup db) :
    ridsNodup ( save_or_update_annotation db f label tr doc sid locs ts) := by
  unfold ridsNodup at h ⊢
  unfold save_or_update_annotation
  cases hf : findPairRow db f sid with
  | some row =>
    simp only
    rw [List.map_map]
    rw [List.map_congr_left
      (fun r _ => by rw [Function.comp_apply, updateRow_rid])]
    exact h
  | none =>
    simp only
    rw [List.map_append]
    rw [List.nodup_append]
    refine ⟨h, List.nodup_singleton _, ?_⟩
    intro x hx hx1
    simp only [List.map_cons, List.map_nil, List.mem_singleton] at hx1
    rcases List.mem_map.1 hx with ⟨r, hr, hrx⟩
    have hlt := mem_rid_lt_next db r hr
    rw [hrx] at hlt
    rw [hx1] at hlt
    exact lt_irrefl _ hlt

/-- A member of a list of length at most one is its only element. -/
theorem eq_singleton_of_mem_of_length_le_one {α : Type} (l : List α) (a : α)
    (hmem : a ∈ l) (hle : l.length ≤ 1) : l = [a] := by
  cases l with
  | nil => cases hmem
  | cons b t =>
    cases t with
    | nil =>
      rcases List.mem_singleton.1 hmem with rfl
      rfl
    | cons c t2 => simp at hle

/-- After one upsert for `(f, sid)` on a store with at most one row for
that pair, the pair has exactly one row and its mutable fields are the
arguments of the call. -/
theorem upsert_single_pairRows (db : List AnnRow) (f sid : String)
    (label : Option String) (tr doc : String)
    (locs : Option (List (String × Nat))) (ts : Nat)
    (_hn : ridsNodup db) (hle : (pairRows db f sid).length ≤ 1) :
    ∃ rid0,
      pairRows ( save_or_update_annotation db f label tr doc sid locs ts) f sid =
        [{ rid := rid0, image_filename := f, label := label, transcription := tr,
           doctor_name := doc, created_at := ts, session_id := sid,
           locs_data := locsJson (locs.getD []) }] := by
  unfold pairRows at hle ⊢
  unfold save_or_update_annotation
  cases hf : findPairRow db f sid with
  | none =>
    refine ⟨nextRowId db, ?_⟩
    simp only
    rw [List.filter_append]
    have hnil : db.filter (matchesPair f sid) = [] := by
      rw [List.filter_eq_nil_iff]
      intro a ha
      exact List.find?_eq_none.1 hf a ha
    rw [hnil]
    have hone : matchesPair f sid
        ( insertedRow db f label tr doc sid ts (locsJson (locs.getD []))) = true := by
      unfold matchesPair insertedRow
      simp
    simp only [List.nil_append, List.filter_cons, hone, List.filter_nil]
    rfl
  | some row =>
    have hrowmem : row ∈ db := List.mem_of_find?_eq_some hf
    have hrowp : matchesPair f sid row = true := List.find?_some hf
    have hfe : row.image_filename = f ∧ row.session_id = sid := by
      unfold matchesPair at hrowp
      rcases Bool.and_eq_true_iff.1 hrowp with ⟨h1, h2⟩
      exact ⟨eq_of_beq h1, eq_of_beq h2⟩
    have hfl : db.filter (matchesPair f sid) = [row] :=
      eq_singleton_of_mem_of_length_le_one _ row
        (List.mem_filter.2 ⟨hrowmem, hrowp⟩) hle
    refine ⟨row.rid, ?_⟩
    simp only
    rw [List.filter_map]
    rw [List.filter_congr
      (fun r _ => by rw [Function.comp_apply, updateRow_matchesPair])]
    rw [hfl]
    simp only [List.map_cons, List.map_nil]
    unfold updateRow
    rw [if_pos rfl]
    rw [← hfe.1, ← hfe.2]

/-- Exactly one row for the pair means length one, for the next induction
step. -/
theorem pairRows_length_of_single (db : List AnnRow) (f sid : String) (r : AnnRow)
    (h : pairRows db f sid = [r]) : (pairRows db f sid).length ≤ 1 := by
  rw [h]
  simp

/-- Applying a non-empty sequence of upserts for one pair leaves exactly
one row for the pair, holding the fields of the last call. -/
theorem applyCalls_pairRows (f sid : String) :
    ∀ (calls : List CallArgs) (db : List AnnRow),
      calls ≠ [] → ridsNodup db → (pairRows db f sid).length ≤ 1 →
      ∃ last rid0, calls.getLast? = some last ∧
        pairRows ( applyCalls db f sid calls) f sid =
          [{ rid := rid0, image_filename := f, label := last.label,
             transcription := last.transcription, doctor_name := last.doctor_name,
             created_at := last.timestamp, session_id := sid,
             locs_data := locsJson (last.locs_data.getD []) }] := by
  intro calls
  induction calls with
  | nil => intro db h; exact absurd rfl h
  | cons c rest ih =>
    intro db _ hn hle
    cases hrest : rest with
    | nil =>
      obtain ⟨rid0, hpr⟩ := upsert_single_pairRows db f sid c.label c.transcription
        c.doctor_name c.locs_data c.timestamp hn hle
      subst hrest
      exact ⟨c, rid0, rfl, hpr⟩
    | cons c2 rest2 =>
      subst hrest
      have hn2 := upsert_ridsNodup db f c.label c.transcription c.doctor_name sid
        c.locs_data c.timestamp hn
      obtain ⟨rid0, hpr⟩ := upsert_single_pairRows db f sid c.label c.transcription
        c.doctor_name c.locs_data c.timestamp hn hle
      have hle2 := pairRows_length_of_single _ f sid _ hpr
      obtain ⟨last, rid1, hlast, hres⟩ :=
        ih ( save_or_update_annotation db f c.label c.transcription c.doctor_name sid
              c.locs_data c.timestamp)
          (List.cons_ne_nil _ _) hn2 hle2
      refine ⟨last, rid1, ?_, ?_⟩
      · rw [List.getLast?_cons_cons]
        exact hlast
      · unfold applyCalls at hres ⊢
        rw [List.foldl_cons]
        exact hres

/-- C1: starting from an audit store whose primary keys are distinct and
which holds at most one row for `(filename, session_id)`, any non-empty
sequence of `save_or_update_annotation` calls for that pair leaves exactly
one audit row for the pair, whose label, transcription, doctor_name and
locs_data equal the arguments of the last call; and an upsert for any
other `(filename, session_id)` pair — in particular the same filename
under a different session — leaves the rows of this pair untouched, so
uniqueness is per pair, not global per filename. -/
theorem c1_upsert_idempotent_per_pair :
    (∀ (db : List AnnRow) (f sid : String) (calls : List CallArgs),
        calls ≠ [] → ridsNodup db → (pairRows db f sid).length ≤ 1 →
        ∃ last rid0, calls.getLast? = some last ∧
          pairRows ( applyCalls db f sid calls) f sid =
            [{ rid := rid0, image_filename := f, label := last.label,
               transcription := last.transcription, doctor_name := last.doctor_name,
               created_at := last.timestamp, session_id := sid,
               locs_data := locsJson (last.locs_data.getD []) }]) ∧
    (∀ (db : List AnnRow) (f f2 sid sid2 : String) (label : Option String)
        (tr doc : String) (locs : Option (List (String × Nat))) (ts : Nat),
        ridsNodup db → ¬(f2 = f ∧ sid2 = sid) →
        pairRows ( save_or_update_annotation db f2 label tr doc sid2 locs ts) f sid =
          pairRows db f sid) := by
  constructor
  · intro db f sid calls hne hn hle
    exact applyCalls_pairRows f sid calls db hne hn hle
  · intro db f f2 sid sid2 label tr doc locs ts hn hne
    unfold pairRows
    unfold save_or_update_annotation
    cases hf : findPairRow db f2 sid2 with
    | none =>
      simp only
      rw [List.filter_append]
      have hnew : matchesPair f sid
          ( insertedRow db f2 label tr doc sid2 ts (locsJson (locs.getD []))) = false := by
        unfold matchesPair insertedRow
        by_cases h1 : f2 = f
        · by_cases h2 : sid2 = sid
          · exact absurd ⟨h1, h2⟩ hne
          · simp [h1, h2]
        · simp [h1]
      simp only [List.filter_cons, hnew, Bool.false_eq_true, if_false, List.filter_nil,
        List.append_nil]
    | some row =>
      have hrowmem : row ∈ db := List.mem_of_find?_eq_some hf
      have hrowp : matchesPair f2 sid2 row = true := List.find?_some hf
      simp only
      rw [List.filter_map]
      rw [List.filter_congr
        (fun r _ => by rw [Function.comp_apply, updateRow_matchesPair])]
      refine List.map_congr_left ?_ |>.trans (List.map_id _)
      intro r hr
      rcases List.mem_filter.1 hr with ⟨hrdb, hrp⟩
      unfold updateRow
      rw [if_neg]
      · rfl
      · intro hrid
        have hreq : r = row := List.inj_on_of_nodup_map hn hrdb hrowmem hrid
        unfold matchesPair at hrp hrowp
        rcases Bool.and_eq_true_iff.1 hrp with ⟨ha1, ha2⟩
        rcases Bool.and_eq_true_iff.1 hrowp with ⟨hb1, hb2⟩
        rw [hreq] at ha1 ha2
        exact hne ⟨(eq_of_beq hb1).symm.trans (eq_of_beq ha1),
          (eq_of_beq hb2).symm.trans (eq_of_beq ha2)⟩

/-- Witness for C1: two successive calls for `("a.jpg", "sid-1")` on the
empty store leave exactly one row, matching the second call. -/
theorem c1_upsert_idempotent_per_pair_witness :
    ([exCallA, exCallB] : List CallArgs) ≠ [] ∧
    ∃ last rid0, ([exCallA, exCallB] : List CallArgs).getLast? = some last ∧
      pairRows ( applyCalls [] "a.jpg" "sid-1" [exCallA, exCallB]) "a.jpg" "sid-1" =
        [{ rid := rid0, image_filename := "a.jpg", label := last.label,
           transcription := last.transcription, doctor_name := last.doctor_name,
           created_at := last.timestamp, session_id := "sid-1",
           locs_data := locsJson (last.locs_data.getD []) }] :=
  ⟨by decide,
   c1_upsert_idempotent_per_pair.1 [] "a.jpg" "sid-1" [exCallA, exCallB]
     (by decide) (by decide) (by decide)⟩

end OphthalmoCapture
